import Mathlib

/-!
Shallow embedding of `pbix-uploader-api` (src/main.py and src/upload_report.py).

The program downloads a .pbix template from blob storage, acquires a bearer
token, uploads the file to a Power BI workspace via the imports endpoint, and
polls the report-listing endpoint to confirm the report is visible.

Network effects are modelled by an explicit environment (`Env`) that supplies
the responses of the external services, and by a trace of `Action`s recording
the outbound calls and sleeps the run performs, in order.
-/

namespace PbixUploader

/-- An entry of the `value` array of the listing response: `report["name"]`
and `report["id"]` in `fetch_report_id`. -/
structure Report where
  name : String
  id : String

deriving instance DecidableEq, Repr for Report

/-- Listing response, as used by `fetch_report_id`: `resp.ok` and the
`value` array of `resp.json().get("value", [])`. -/
structure ListResp where
  ok : Bool
  value : List Report

deriving instance DecidableEq, Repr for ListResp

/-- Upload response, as used by `upload_report`: `resp.status_code` and
`resp.text`. -/
structure HttpResp where
  status_code : Nat
  text : String

deriving instance DecidableEq, Repr for HttpResp

/-- Result of `msal.ConfidentialClientApplication.acquire_token_for_client`:
a dict that may contain `access_token` and may contain `error_description`. -/
structure TokenResult where
  access_token : Option String
  error_description : Option String

deriving instance DecidableEq, Repr for TokenResult

/-- `fastapi.HTTPException(status_code=..., detail=...)`. -/
structure HTTPException where
  status_code : Nat
  detail : String

deriving instance DecidableEq, Repr for HTTPException

/-- The `UploadResponse` pydantic model of main.py. -/
structure UploadResponse where
  message : String
  workspace_id : String
  report_name : String
  report_id : Option String

deriving instance DecidableEq, Repr for UploadResponse

/-- The `UploadRequest` pydantic model of main.py. -/
structure UploadRequest where
  workspace_id : String
  report_name : String

deriving instance DecidableEq, Repr for UploadRequest

/-- The single file field of the multipart body:
`"file": (f"{report_name}.pbix", pbix_bytes, "application/vnd.ms-powerbi.pbix")`. -/
structure FilePart where
  fieldName : String
  filename : String
  content : List Nat
  contentType : String

deriving instance DecidableEq, Repr for FilePart

/-- One observable step of a run: the outbound network calls and the sleeps,
in program order. -/
inductive Action where
  | tokenCall : Action
  | blobCall : Action
  | uploadCall : String → FilePart → Action
  | sleep : Nat → Action
  | listCall : String → Action

deriving instance DecidableEq, Repr for Action

/-- The environment of one run: what each external service would answer.
`listings k` is the listing response the platform returns to the
`k`-th (0-based) GET of the reports endpoint. -/
structure Env where
  token : TokenResult
  blob : Except String (List Nat)
  upload : HttpResp
  listings : Nat → ListResp

/-- `POWERBI_API` constant of both source files. -/
def POWERBI_API : String := "https://api.powerbi.com/v1.0/myorg"

/-- The upload URL of `upload_report` (main.py) and `upload_to_workspace`
(upload_report.py): an f-string interpolation of the workspace id and the
report name, with no URL encoding. -/
def buildUploadUrl (workspace_id report_name : String) : String :=
  POWERBI_API ++ "/groups/" ++ workspace_id ++ "/imports"
    ++ "?datasetDisplayName=" ++ report_name
    ++ "&nameConflict=CreateOrOverwrite"

/-- The listing URL of `fetch_report_id`:
`f"{POWERBI_API}/groups/{workspace_id}/reports"`. -/
def reportsUrl (workspace_id : String) : String :=
  POWERBI_API ++ "/groups/" ++ workspace_id ++ "/reports"

/-- The multipart `files` dict of the upload request. -/
def mkFilePart (report_name : String) (pbix_bytes : List Nat) : FilePart :=
  ⟨"file", report_name ++ ".pbix", pbix_bytes, "application/vnd.ms-powerbi.pbix"⟩

/-- `resp.status_code not in (200, 201, 202)` negated: the status codes the
code accepts. -/
def acceptedStatus (s : Nat) : Bool :=
  s == 200 || s == 201 || s == 202

/-- Per-character lowercasing, the embedding of Python `str.lower()` as used
in `report["name"].lower() == report_name.lower()`. -/
def lowerStr (s : String) : String :=
  String.mk (s.data.map Char.toLower)

/-- The inner `for report in resp.json().get("value", [])` loop of
`fetch_report_id`: first report whose name matches case-insensitively,
returning its id. -/
def findMatch (report_name : String) : List Report → Option String
  | [] => none
  | r :: rs =>
      if lowerStr r.name == lowerStr report_name then some r.id
      else findMatch report_name rs

/-- What one polling attempt yields: `none` when the listing response is not
ok, or when no report name matches; otherwise the first matching id. -/
def attemptResult (listings : Nat → ListResp) (report_name : String) (k : Nat) :
    Option String :=
  if (listings k).ok then findMatch report_name (listings k).value else none

/-- The `for _ in range(8)` loop of `fetch_report_id`, with `k` the index of
the next attempt and `r` the number of attempts remaining.  Each attempt
sleeps 3 seconds, issues one GET of the listing URL, and returns the first
case-insensitive match if the response is ok and contains one. -/
def fetchLoop (listings : Nat → ListResp) (url : String) (report_name : String) :
    Nat → Nat → Option String × List Action
  | _, 0 => (none, [])
  | k, r + 1 =>
      match attemptResult listings report_name k with
      | some i => (some i, [Action.sleep 3, Action.listCall url])
      | none =>
          let rest := fetchLoop listings url report_name (k + 1) r
          (rest.1, Action.sleep 3 :: Action.listCall url :: rest.2)

/-- `fetch_report_id(headers, workspace_id, report_name)` of both source
files: 8 attempts, starting at attempt 0. -/
def fetch_report_id (listings : Nat → ListResp)
    (workspace_id report_name : String) : Option String × List Action :=
  fetchLoop listings (reportsUrl workspace_id) report_name 0 8

/-- The trace of `n` polling attempts: each attempt is a 3-second sleep
followed by one GET of the listing URL. -/
def pollTrace (u : String) : Nat → List Action
  | 0 => []
  | n + 1 => Action.sleep 3 :: Action.listCall u :: pollTrace u n

/-- Recognises a listing GET in a trace. -/
def isListCall : Action → Bool
  | Action.listCall _ => true
  | _ => false

/-- Recognises an upload POST in a trace. -/
def isUploadCall : Action → Bool
  | Action.uploadCall _ _ => true
  | _ => false

/-- Number of listing GETs a trace performs. -/
def countListCalls (tr : List Action) : Nat :=
  (tr.filter isListCall).length

/-- Total time slept along a trace, in seconds. -/
def totalSleep : List Action → Nat
  | [] => 0
  | Action.sleep m :: t => m + totalSleep t
  | _ :: t => totalSleep t

/-- `get_access_token()` of main.py: raises
`HTTPException(500, f"Token error: {result.get('error_description')}")` when
the result has no `access_token`.  Python renders a missing description as
the string `None`. -/
def get_access_token (result : TokenResult) : Except HTTPException String :=
  match result.access_token with
  | none =>
      Except.error ⟨500, "Token error: " ++
        (match result.error_description with
         | none => "None"
         | some d => d)⟩
  | some t => Except.ok t

/-- `download_empty_pbix()` of main.py: any exception from the blob client is
wrapped into `HTTPException(500, f"Blob download failed: {str(e)}")`. -/
def download_empty_pbix (blob : Except String (List Nat)) :
    Except HTTPException (List Nat) :=
  match blob with
  | Except.error e => Except.error ⟨500, "Blob download failed: " ++ e⟩
  | Except.ok bs => Except.ok bs

/-- The `/upload-report` endpoint `upload_report(body)` of main.py:
authenticate, download the template, POST it to the imports endpoint, and on
an accepted status poll for the report id.  Returns the endpoint's result
(either the raised `HTTPException` or the `UploadResponse`) together with the
trace of outbound calls and sleeps. -/
def upload_report (env : Env) (body : UploadRequest) :
    Except HTTPException UploadResponse × List Action :=
  match get_access_token env.token with
  | Except.error e => (Except.error e, [Action.tokenCall])
  | Except.ok _tok =>
      match download_empty_pbix env.blob with
      | Except.error e => (Except.error e, [Action.tokenCall, Action.blobCall])
      | Except.ok pbix_bytes =>
          let url := buildUploadUrl body.workspace_id body.report_name
          let fp := mkFilePart body.report_name pbix_bytes
          let resp := env.upload
          let pre := [Action.tokenCall, Action.blobCall, Action.uploadCall url fp]
          if acceptedStatus resp.status_code then
            let rid := fetch_report_id env.listings body.workspace_id body.report_name
            (Except.ok
              ⟨(if rid.1.isSome then "Report uploaded successfully"
                else "Upload accepted but report ID not yet confirmed"),
               body.workspace_id, body.report_name, rid.1⟩,
             pre ++ rid.2)
          else
            (Except.error ⟨resp.status_code, resp.text⟩, pre)

/-- Splits a character list at every occurrence of `c`, with `cur` the
(reversed) characters of the piece being accumulated. -/
def splitChars (c : Char) (cur : List Char) : List Char → List (List Char)
  | [] => [cur.reverse]
  | x :: xs => if x = c then cur.reverse :: splitChars c [] xs else splitChars c (x :: cur) xs

/-- The characters after the first occurrence of `c`, if any. -/
def afterChar (c : Char) : List Char → Option (List Char)
  | [] => none
  | x :: xs => if x = c then some xs else afterChar c xs

/-- The query parameters of a URL as the platform would parse them: the part
after the first question mark, split at every ampersand. -/
def queryParams (s : String) : List String :=
  match afterChar '?' s.data with
  | none => []
  | some q => (splitChars '&' [] q).map String.mk

/-- Listing oracle for tests: every attempt succeeds and already shows a
report named "R". -/
def sampleListingsHit : Nat → ListResp :=
  fun _ => ⟨true, [⟨"R", "id1"⟩]⟩

/-- Listing oracle for tests: every attempt fails with a non-success
response. -/
def sampleListingsFail : Nat → ListResp :=
  fun _ => ⟨false, []⟩

/-- A concrete request body. -/
def sampleBody : UploadRequest := ⟨"W", "R"⟩

/-- Environment where everything succeeds and the report is visible on the
first poll. -/
def envAccepted : Env :=
  ⟨⟨some "tok", none⟩, Except.ok [7, 7], ⟨200, ""⟩, sampleListingsHit⟩

/-- Environment where the platform rejects the import with 400 and body
"Invalid dataset" (Scenario D). -/
def envRejected : Env :=
  ⟨⟨some "tok", none⟩, Except.ok [7, 7], ⟨400, "Invalid dataset"⟩, sampleListingsHit⟩

/-- Environment where the upload is accepted (202) but the report never
appears in any poll (Scenario B). -/
def envUnconfirmed : Env :=
  ⟨⟨some "tok", none⟩, Except.ok [7, 7], ⟨202, ""⟩, sampleListingsFail⟩

/-- Environment where the identity provider returns an error description
instead of a token (Scenario C). -/
def envAuthFail : Env :=
  ⟨⟨none, some "invalid_client"⟩, Except.ok [7, 7], ⟨200, ""⟩, sampleListingsHit⟩

/-- Environment where the blob download raises. -/
def envBlobFail : Env :=
  ⟨⟨some "tok", none⟩, Except.error "BlobNotFound", ⟨200, ""⟩, sampleListingsHit⟩

/-! ### Structural lemmas about the polling trace -/

theorem countListCalls_pollTrace (u : String) :
    ∀ n, countListCalls (pollTrace u n) = n := by
  intro n
  induction n with
  | zero => rfl
  | succ n ih =>
      simp only [pollTrace, countListCalls, List.filter] at ih ⊢
      simp [isListCall, ih]

theorem totalSleep_pollTrace (u : String) :
    ∀ n, totalSleep (pollTrace u n) = 3 * n := by
  intro n
  induction n with
  | zero => rfl
  | succ n ih =>
      simp only [pollTrace, totalSleep, ih]
      omega

theorem filter_upload_pollTrace (u : String) :
    ∀ n, (pollTrace u n).filter isUploadCall = [] := by
  intro n
  induction n with
  | zero => rfl
  | succ n ih => simp [pollTrace, List.filter, isUploadCall, ih]

theorem head_pollTrace (u : String) (n : Nat) (h : 1 ≤ n) :
    (pollTrace u n).head? = some (Action.sleep 3) := by
  match n, h with
  | n' + 1, _ => rfl

/-! ### Structural lemmas about the polling loop -/

theorem fetchLoop_first_match (L : Nat → ListResp) (u nm : String) :
    ∀ (j r k : Nat), j < r →
      (∀ i, i < j → attemptResult L nm (k + i) = none) →
      (attemptResult L nm (k + j)).isSome = true →
      fetchLoop L u nm k r = (attemptResult L nm (k + j), pollTrace u (j + 1)) := by
  intro j
  induction j with
  | zero =>
      intro r k hr hpre hsome
      match r, hr with
      | r' + 1, _ =>
        rw [Nat.add_zero] at hsome ⊢
        cases h : attemptResult L nm k with
        | none => rw [h] at hsome; simp at hsome
        | some i => simp [fetchLoop, h, pollTrace]
  | succ j ih =>
      intro r k hr hpre hsome
      match r, hr with
      | r' + 1, hr =>
        have h0 : attemptResult L nm k = none := by
          have h := hpre 0 (Nat.succ_pos j)
          rwa [Nat.add_zero] at h
        have hpre' : ∀ i, i < j → attemptResult L nm (k + 1 + i) = none := by
          intro i hi
          have h := hpre (i + 1) (Nat.succ_lt_succ hi)
          have he : k + (i + 1) = k + 1 + i := by omega
          rwa [he] at h
        have hsome' : (attemptResult L nm (k + 1 + j)).isSome = true := by
          have he : k + (j + 1) = k + 1 + j := by omega
          rwa [he] at hsome
        have hjr : j < r' := Nat.lt_of_succ_lt_succ hr
        have IH := ih r' (k + 1) hjr hpre' hsome'
        have he : k + (j + 1) = k + 1 + j := by omega
        rw [he]
        simp [fetchLoop, h0, IH, pollTrace]

theorem fetchLoop_all_none (L : Nat → ListResp) (u nm : String) :
    ∀ (r k : Nat), (∀ i, i < r → attemptResult L nm (k + i) = none) →
      fetchLoop L u nm k r = (none, pollTrace u r) := by
  intro r
  induction r with
  | zero => intro k _; rfl
  | succ r ih =>
      intro k hall
      have h0 : attemptResult L nm k = none := by
        have h := hall 0 (Nat.succ_pos r)
        rwa [Nat.add_zero] at h
      have h' : ∀ i, i < r → attemptResult L nm (k + 1 + i) = none := by
        intro i hi
        have he : k + 1 + i = k + (i + 1) := by omega
        rw [he]
        exact hall (i + 1) (Nat.succ_lt_succ hi)
      simp [fetchLoop, h0, ih (k + 1) h', pollTrace]

theorem fetchLoop_trace_shape (L : Nat → ListResp) (u nm : String) :
    ∀ (r k : Nat), ∃ n, n ≤ r ∧ (0 < r → 1 ≤ n) ∧
      (fetchLoop L u nm k r).2 = pollTrace u n ∧
      ((fetchLoop L u nm k r).1 = none → n = r) := by
  intro r
  induction r with
  | zero =>
      intro k
      exact ⟨0, Nat.le_refl 0, fun h => absurd h (Nat.lt_irrefl 0), rfl, fun _ => rfl⟩
  | succ r ih =>
      intro k
      cases h : attemptResult L nm k with
      | some i =>
          refine ⟨1, Nat.succ_le_succ (Nat.zero_le r), fun _ => Nat.le_refl 1, ?_, ?_⟩
          · simp [fetchLoop, h, pollTrace]
          · intro hnone; simp [fetchLoop, h] at hnone
      | none =>
          obtain ⟨n, hn_le, _, htr, hnone⟩ := ih (k + 1)
          refine ⟨n + 1, Nat.succ_le_succ hn_le,
            fun _ => Nat.succ_le_succ (Nat.zero_le n), ?_, ?_⟩
          · simp [fetchLoop, h, htr, pollTrace]
          · intro hres
            have hr : (fetchLoop L u nm (k + 1) r).1 = none := by
              simpa [fetchLoop, h] using hres
            rw [hnone hr]

theorem fetch_trace_no_upload (L : Nat → ListResp) (ws nm : String) :
    ((fetch_report_id L ws nm).2).filter isUploadCall = [] := by
  obtain ⟨n, _, _, htr, _⟩ := fetchLoop_trace_shape L (reportsUrl ws) nm 8 0
  show ((fetchLoop L (reportsUrl ws) nm 0 8).2).filter isUploadCall = []
  rw [htr]
  exact filter_upload_pollTrace (reportsUrl ws) n

/-! ### Lemmas about the case-insensitive name match -/

theorem findMatch_isSome_iff (nm : String) (reports : List Report) :
    (findMatch nm reports).isSome = true ↔
      ∃ r, r ∈ reports ∧ lowerStr r.name = lowerStr nm := by
  induction reports with
  | nil => simp [findMatch]
  | cons a rs ih =>
      by_cases h : lowerStr a.name = lowerStr nm
      · constructor
        · intro _
          exact ⟨a, List.mem_cons_self a rs, h⟩
        · intro _
          simp [findMatch, h]
      · have hb : (lowerStr a.name == lowerStr nm) = false := by
          simpa using h
        constructor
        · intro hs
          rw [findMatch, hb] at hs
          simp only [Bool.false_eq_true, if_false] at hs
          obtain ⟨r, hr, hrn⟩ := ih.mp hs
          exact ⟨r, List.mem_cons_of_mem a hr, hrn⟩
        · intro hex
          obtain ⟨r, hr, hrn⟩ := hex
          have hmem : r ∈ rs := by
            rcases List.mem_cons.mp hr with h1 | h1
            · exact absurd (h1 ▸ hrn) h
            · exact h1
          rw [findMatch, hb]
          simp only [Bool.false_eq_true, if_false]
          exact ih.mpr ⟨r, hmem, hrn⟩

theorem findMatch_first (nm : String) :
    ∀ (pre : List Report) (r : Report) (post : List Report),
      lowerStr r.name = lowerStr nm →
      (∀ q, q ∈ pre → lowerStr q.name ≠ lowerStr nm) →
      findMatch nm (pre ++ r :: post) = some r.id := by
  intro pre
  induction pre with
  | nil =>
      intro r post hr _
      simp [findMatch, hr]
  | cons a pres ih =>
      intro r post hr hpre
      have ha : lowerStr a.name ≠ lowerStr nm := hpre a (List.mem_cons_self a pres)
      have hb : (lowerStr a.name == lowerStr nm) = false := by simpa using ha
      have hrec := ih r post hr (fun q hq => hpre q (List.mem_cons_of_mem a hq))
      rw [List.cons_append, findMatch, hb]
      simp only [Bool.false_eq_true, if_false]
      exact hrec

/-! ### String-building lemmas -/

theorem strAppendAssoc (a b c : String) : a ++ b ++ c = a ++ (b ++ c) := by
  cases a with
  | mk da =>
    cases b with
    | mk db =>
      cases c with
      | mk dc =>
        show String.mk (da ++ db ++ dc) = String.mk (da ++ (db ++ dc))
        rw [List.append_assoc]

theorem buildUploadUrl_eq (ws nm : String) :
    buildUploadUrl ws nm =
      "https://api.powerbi.com/v1.0/myorg/groups/" ++ ws
        ++ "/imports?datasetDisplayName=" ++ nm
        ++ "&nameConflict=CreateOrOverwrite" := by
  have h1 : POWERBI_API ++ "/groups/" = "https://api.powerbi.com/v1.0/myorg/groups/" := by
    decide
  have h2 : ("/imports" : String) ++ "?datasetDisplayName=" = "/imports?datasetDisplayName=" := by
    decide
  rw [buildUploadUrl, strAppendAssoc (POWERBI_API ++ "/groups/" ++ ws) "/imports"
    "?datasetDisplayName=", h2, h1]

theorem reportsUrl_eq (ws : String) :
    reportsUrl ws = "https://api.powerbi.com/v1.0/myorg/groups/" ++ ws ++ "/reports" := by
  have h1 : POWERBI_API ++ "/groups/" = "https://api.powerbi.com/v1.0/myorg/groups/" := by
    decide
  rw [reportsUrl, h1]

/-! ### Claim theorems -/

/-- C3: every execution of the confirm operation performs at least 1 and at
most 8 listing calls, each listing call is preceded by the fixed 3-second
delay (the trace is exactly a sequence of sleep-then-list blocks), and on the
first attempt whose listing contains a case-insensitive name match it returns
that attempt's matched id having performed exactly that many listing calls,
none further. -/
theorem confirm_polling_bounds (L : Nat → ListResp) (ws nm : String) :
    (∃ n, 1 ≤ n ∧ n ≤ 8 ∧
      (fetch_report_id L ws nm).2 = pollTrace (reportsUrl ws) n ∧
      countListCalls (fetch_report_id L ws nm).2 = n) ∧
    (∀ j, j < 8 → (∀ i, i < j → attemptResult L nm i = none) →
      (attemptResult L nm j).isSome = true →
      (fetch_report_id L ws nm).1 = attemptResult L nm j ∧
      countListCalls (fetch_report_id L ws nm).2 = j + 1) := by
  constructor
  · obtain ⟨n, hle, hpos, htr, _⟩ := fetchLoop_trace_shape L (reportsUrl ws) nm 8 0
    refine ⟨n, hpos (by omega), hle, htr, ?_⟩
    show countListCalls (fetchLoop L (reportsUrl ws) nm 0 8).2 = n
    rw [htr]
    exact countListCalls_pollTrace _ n
  · intro j hj hpre hsome
    have hpre' : ∀ i, i < j → attemptResult L nm (0 + i) = none := by
      intro i hi; rw [Nat.zero_add]; exact hpre i hi
    have hsome' : (attemptResult L nm (0 + j)).isSome = true := by
      rw [Nat.zero_add]; exact hsome
    have h := fetchLoop_first_match L (reportsUrl ws) nm j 8 0 hj hpre' hsome'
    constructor
    · show (fetchLoop L (reportsUrl ws) nm 0 8).1 = attemptResult L nm j
      rw [h, Nat.zero_add]
    · show countListCalls (fetchLoop L (reportsUrl ws) nm 0 8).2 = j + 1
      rw [h]
      exact countListCalls_pollTrace _ (j + 1)

/-- C3 witness: with a listing oracle that already shows report "R" on the
first attempt, confirm returns on attempt 1 after exactly one listing call. -/
theorem confirm_polling_bounds_witness :
    (attemptResult sampleListingsHit "R" 0).isSome = true ∧
    ((fetch_report_id sampleListingsHit "W" "R").1 = attemptResult sampleListingsHit "R" 0 ∧
      countListCalls (fetch_report_id sampleListingsHit "W" "R").2 = 0 + 1) := by
  refine ⟨by decide, ?_⟩
  exact (confirm_polling_bounds sampleListingsHit "W" "R").2 0 (by decide)
    (fun i hi => absurd hi (Nat.not_lt_zero i)) (by decide)

/-- C4: a non-success listing response makes that attempt yield exactly "not
found yet" and the loop proceeds; a result of none is only ever produced
after the full budget of 8 listing calls. -/
theorem confirm_listing_failure_tolerated (L : Nat → ListResp) (ws nm : String) :
    (∀ k, (L k).ok = false → attemptResult L nm k = none) ∧
    ((fetch_report_id L ws nm).1 = none →
      (fetch_report_id L ws nm).2 = pollTrace (reportsUrl ws) 8 ∧
      countListCalls (fetch_report_id L ws nm).2 = 8) := by
  constructor
  · intro k hk
    simp [attemptResult, hk]
  · intro hnone
    obtain ⟨n, hle, hpos, htr, hn8⟩ := fetchLoop_trace_shape L (reportsUrl ws) nm 8 0
    have h8 : n = 8 := hn8 hnone
    subst h8
    refine ⟨htr, ?_⟩
    show countListCalls (fetchLoop L (reportsUrl ws) nm 0 8).2 = 8
    rw [htr]
    exact countListCalls_pollTrace _ 8

/-- C4 witness: with every listing call failing, every attempt yields none
and the loop still performs all 8 listing calls before returning none. -/
theorem confirm_listing_failure_tolerated_witness :
    (sampleListingsFail 0).ok = false ∧
    attemptResult sampleListingsFail "R" 0 = none ∧
    (fetch_report_id sampleListingsFail "W" "R").1 = none ∧
    countListCalls (fetch_report_id sampleListingsFail "W" "R").2 = 8 := by
  have h := confirm_listing_failure_tolerated sampleListingsFail "W" "R"
  exact ⟨rfl, h.1 0 rfl, by decide, (h.2 (by decide)).2⟩

/-- C9: the fixed 3-second delay is performed before every listing call,
including the first — the trace starts with a sleep, the total time slept is
3 seconds per listing call, and the minimum duration is 3 seconds, never
zero. -/
theorem confirm_delay_before_every_call (L : Nat → ListResp) (ws nm : String) :
    ((fetch_report_id L ws nm).2).head? = some (Action.sleep 3) ∧
    totalSleep (fetch_report_id L ws nm).2 =
      3 * countListCalls (fetch_report_id L ws nm).2 ∧
    3 ≤ totalSleep (fetch_report_id L ws nm).2 := by
  obtain ⟨n, hle, hpos, htr, _⟩ := fetchLoop_trace_shape L (reportsUrl ws) nm 8 0
  have h1 : 1 ≤ n := hpos (by omega)
  have htr' : (fetch_report_id L ws nm).2 = pollTrace (reportsUrl ws) n := htr
  refine ⟨?_, ?_, ?_⟩
  · rw [htr']
    exact head_pollTrace _ n h1
  · rw [htr', totalSleep_pollTrace, countListCalls_pollTrace]
  · rw [htr', totalSleep_pollTrace]
    omega

/-- C6: a listing entry matches exactly when its name equals the requested
name case-insensitively, and among several matching entries the first one in
listing order is returned. -/
theorem confirm_case_insensitive_first_match (nm : String) (reports : List Report) :
    ((findMatch nm reports).isSome = true ↔
      ∃ r, r ∈ reports ∧ lowerStr r.name = lowerStr nm) ∧
    (∀ pre r post, reports = pre ++ r :: post →
      lowerStr r.name = lowerStr nm →
      (∀ q, q ∈ pre → lowerStr q.name ≠ lowerStr nm) →
      findMatch nm reports = some r.id) := by
  constructor
  · exact findMatch_isSome_iff nm reports
  · intro pre r post heq hr hpre
    subst heq
    exact findMatch_first nm pre r post hr hpre

/-- C6 witness (Scenario E): with reports "Sales" and "sales" both matching
"SALES", the first one in listing order is returned. -/
theorem confirm_case_insensitive_first_match_witness :
    lowerStr "Sales" = lowerStr "SALES" ∧
    findMatch "SALES" [⟨"Sales", "a"⟩, ⟨"sales", "b"⟩] = some "a" := by
  refine ⟨by decide, ?_⟩
  exact (confirm_case_insensitive_first_match "SALES" [⟨"Sales", "a"⟩, ⟨"sales", "b"⟩]).2
    [] ⟨"Sales", "a"⟩ [⟨"sales", "b"⟩] rfl (by decide)
    (fun q hq => absurd hq (List.not_mem_nil q))

/-- C1: when token acquisition and the blob download succeed, the run issues
exactly one upload POST, to the imports URL built from the workspace id and
report name with the literal nameConflict=CreateOrOverwrite parameter, with a
single multipart file field named "file", declared filename
reportName.pbix, and the Power BI package content type. -/
theorem upload_request_shape (env : Env) (body : UploadRequest) (t : String)
    (bytes : List Nat)
    (htok : env.token.access_token = some t)
    (hblob : env.blob = Except.ok bytes) :
    ((upload_report env body).2).filter isUploadCall =
      [Action.uploadCall (buildUploadUrl body.workspace_id body.report_name)
        (mkFilePart body.report_name bytes)] ∧
    buildUploadUrl body.workspace_id body.report_name =
      "https://api.powerbi.com/v1.0/myorg/groups/" ++ body.workspace_id
        ++ "/imports?datasetDisplayName=" ++ body.report_name
        ++ "&nameConflict=CreateOrOverwrite" ∧
    mkFilePart body.report_name bytes =
      ⟨"file", body.report_name ++ ".pbix", bytes, "application/vnd.ms-powerbi.pbix"⟩ := by
  have h1 : get_access_token env.token = Except.ok t := by
    simp [get_access_token, htok]
  have h2 : download_empty_pbix env.blob = Except.ok bytes := by
    simp [download_empty_pbix, hblob]
  refine ⟨?_, buildUploadUrl_eq _ _, rfl⟩
  by_cases hacc : acceptedStatus env.upload.status_code = true
  · simp only [upload_report, h1, h2, hacc, if_true]
    rw [show ([Action.tokenCall, Action.blobCall,
        Action.uploadCall (buildUploadUrl body.workspace_id body.report_name)
          (mkFilePart body.report_name bytes)] ++
        (fetch_report_id env.listings body.workspace_id body.report_name).2).filter
          isUploadCall =
      ([Action.tokenCall, Action.blobCall,
        Action.uploadCall (buildUploadUrl body.workspace_id body.report_name)
          (mkFilePart body.report_name bytes)].filter isUploadCall) ++
      (((fetch_report_id env.listings body.workspace_id body.report_name).2).filter
          isUploadCall) from List.filter_append _ _]
    rw [fetch_trace_no_upload]
    simp [List.filter, isUploadCall]
  · have hacc' : acceptedStatus env.upload.status_code = false := by
      simpa using hacc
    simp only [upload_report, h1, h2, hacc']
    simp [List.filter, isUploadCall]

/-- C1 witness: in a fully successful concrete environment the whole trace
contains exactly one upload POST with the expected URL and file field. -/
theorem upload_request_shape_witness :
    envAccepted.token.access_token = some "tok" ∧
    ((upload_report envAccepted sampleBody).2).filter isUploadCall =
      [Action.uploadCall (buildUploadUrl "W" "R") (mkFilePart "R" [7, 7])] := by
  have h := upload_request_shape envAccepted sampleBody "tok" [7, 7] rfl rfl
  exact ⟨rfl, h.1⟩

/-- C2: with token and artifact in hand, the upload is treated as accepted
exactly when the status code is 200, 201 or 202; any other status terminates
the run with an error carrying that status code and the response body
verbatim, and the Confirmer performs no listing call. -/
theorem upload_acceptance_classification (env : Env) (body : UploadRequest)
    (t : String) (bytes : List Nat)
    (htok : env.token.access_token = some t)
    (hblob : env.blob = Except.ok bytes) :
    ((∃ r, (upload_report env body).1 = Except.ok r) ↔
      acceptedStatus env.upload.status_code = true) ∧
    (∀ s, acceptedStatus s = true ↔ (s = 200 ∨ s = 201 ∨ s = 202)) ∧
    (acceptedStatus env.upload.status_code = false →
      (upload_report env body).1 =
        Except.error ⟨env.upload.status_code, env.upload.text⟩ ∧
      (upload_report env body).2 =
        [Action.tokenCall, Action.blobCall,
          Action.uploadCall (buildUploadUrl body.workspace_id body.report_name)
            (mkFilePart body.report_name bytes)] ∧
      countListCalls (upload_report env body).2 = 0) := by
  have h1 : get_access_token env.token = Except.ok t := by
    simp [get_access_token, htok]
  have h2 : download_empty_pbix env.blob = Except.ok bytes := by
    simp [download_empty_pbix, hblob]
  refine ⟨?_, ?_, ?_⟩
  · by_cases hacc : acceptedStatus env.upload.status_code = true
    · simp only [hacc, iff_true]
      exact ⟨⟨if (fetch_report_id env.listings body.workspace_id
              body.report_name).1.isSome then "Report uploaded successfully"
            else "Upload accepted but report ID not yet confirmed",
          body.workspace_id, body.report_name,
          (fetch_report_id env.listings body.workspace_id body.report_name).1⟩,
        by simp [upload_report, h1, h2, hacc]⟩
    · have hacc' : acceptedStatus env.upload.status_code = false := by
        simpa using hacc
      constructor
      · intro hex
        obtain ⟨r, hr⟩ := hex
        rw [show (upload_report env body).1 =
            Except.error ⟨env.upload.status_code, env.upload.text⟩ from by
          simp [upload_report, h1, h2, hacc']] at hr
        exact Except.noConfusion hr
      · intro hcontra
        rw [hacc'] at hcontra
        exact absurd hcontra (by decide)
  · intro s
    simp [acceptedStatus, Bool.or_eq_true, or_assoc]
  · intro hrej
    refine ⟨by simp [upload_report, h1, h2, hrej], by simp [upload_report, h1, h2, hrej], ?_⟩
    simp [upload_report, h1, h2, hrej, countListCalls, List.filter, isListCall]

/-- C2 witness (Scenario D): a 400 response with body "Invalid dataset"
yields that exact error and no listing call. -/
theorem upload_acceptance_classification_witness :
    acceptedStatus envRejected.upload.status_code = false ∧
    (upload_report envRejected sampleBody).1 =
      Except.error ⟨400, "Invalid dataset"⟩ ∧
    countListCalls (upload_report envRejected sampleBody).2 = 0 := by
  have h := (upload_acceptance_classification envRejected sampleBody "tok" [7, 7]
    rfl rfl).2.2 (by decide)
  exact ⟨by decide, h.1, h.2.2⟩

/-- C5: when the upload is accepted but no listing attempt within the
8-attempt budget matches, the run ends without an exception in the
accepted-but-unconfirmed outcome: a success response with the unconfirmed
caveat and no report id. -/
theorem accepted_unconfirmed_outcome (env : Env) (body : UploadRequest)
    (t : String) (bytes : List Nat)
    (htok : env.token.access_token = some t)
    (hblob : env.blob = Except.ok bytes)
    (hacc : acceptedStatus env.upload.status_code = true)
    (hmiss : ∀ k, k < 8 → attemptResult env.listings body.report_name k = none) :
    (upload_report env body).1 = Except.ok
      ⟨"Upload accepted but report ID not yet confirmed", body.workspace_id,
        body.report_name, none⟩ := by
  have h1 : get_access_token env.token = Except.ok t := by
    simp [get_access_token, htok]
  have h2 : download_empty_pbix env.blob = Except.ok bytes := by
    simp [download_empty_pbix, hblob]
  have hmiss' : ∀ i, i < 8 → attemptResult env.listings body.report_name (0 + i) = none := by
    intro i hi
    rw [Nat.zero_add]
    exact hmiss i hi
  have hfetch : fetch_report_id env.listings body.workspace_id body.report_name =
      (none, pollTrace (reportsUrl body.workspace_id) 8) :=
    fetchLoop_all_none env.listings (reportsUrl body.workspace_id) body.report_name 8 0 hmiss'
  simp [upload_report, h1, h2, hacc, hfetch]

/-- C5 witness (Scenario B): upload accepted with 202 but the report never
appears in 8 polls — the result is the unconfirmed success response. -/
theorem accepted_unconfirmed_outcome_witness :
    acceptedStatus envUnconfirmed.upload.status_code = true ∧
    (upload_report envUnconfirmed sampleBody).1 = Except.ok
      ⟨"Upload accepted but report ID not yet confirmed", "W", "R", none⟩ := by
  refine ⟨by decide, ?_⟩
  exact accepted_unconfirmed_outcome envUnconfirmed sampleBody "tok" [7, 7] rfl rfl
    (by decide) (fun k _ => rfl)

/-- C7: when the identity provider response lacks an access token, the run
fails with the 500 token error carrying the provider error description, and
the trace contains only the token call — no call to the store or the
platform is made. -/
theorem auth_failure_terminal_before_io (env : Env) (body : UploadRequest)
    (d : String)
    (htok : env.token.access_token = none)
    (hdesc : env.token.error_description = some d) :
    (upload_report env body).1 = Except.error ⟨500, "Token error: " ++ d⟩ ∧
    (upload_report env body).2 = [Action.tokenCall] := by
  have h1 : get_access_token env.token = Except.error ⟨500, "Token error: " ++ d⟩ := by
    simp [get_access_token, htok, hdesc]
  exact ⟨by simp [upload_report, h1], by simp [upload_report, h1]⟩

/-- C7 witness (Scenario C): the provider answers with an error description
instead of a token; the run fails at once and only the token call happened. -/
theorem auth_failure_terminal_before_io_witness :
    envAuthFail.token.access_token = none ∧
    (upload_report envAuthFail sampleBody).1 =
      Except.error ⟨500, "Token error: " ++ "invalid_client"⟩ ∧
    (upload_report envAuthFail sampleBody).2 = [Action.tokenCall] := by
  have h := auth_failure_terminal_before_io envAuthFail sampleBody "invalid_client" rfl rfl
  exact ⟨rfl, h.1, h.2⟩

/-- C8: any blob-store error is wrapped into the 500 blob-download-failed
error carrying the underlying cause, and the run terminates there: the trace
stops after the blob call, with no upload and no listing call. -/
theorem storage_error_wrapped_terminal (env : Env) (body : UploadRequest)
    (t e : String)
    (htok : env.token.access_token = some t)
    (hblob : env.blob = Except.error e) :
    download_empty_pbix env.blob =
      Except.error ⟨500, "Blob download failed: " ++ e⟩ ∧
    (upload_report env body).1 =
      Except.error ⟨500, "Blob download failed: " ++ e⟩ ∧
    (upload_report env body).2 = [Action.tokenCall, Action.blobCall] := by
  have h1 : get_access_token env.token = Except.ok t := by
    simp [get_access_token, htok]
  have h2 : download_empty_pbix env.blob =
      Except.error ⟨500, "Blob download failed: " ++ e⟩ := by
    simp [download_empty_pbix, hblob]
  exact ⟨h2, by simp [upload_report, h1, h2], by simp [upload_report, h1, h2]⟩

/-- C8 witness: a missing blob yields the wrapped storage error and the trace
ends at the blob call. -/
theorem storage_error_wrapped_terminal_witness :
    envBlobFail.blob = Except.error "BlobNotFound" ∧
    (upload_report envBlobFail sampleBody).1 =
      Except.error ⟨500, "Blob download failed: " ++ "BlobNotFound"⟩ ∧
    (upload_report envBlobFail sampleBody).2 = [Action.tokenCall, Action.blobCall] := by
  have h := storage_error_wrapped_terminal envBlobFail sampleBody "tok" "BlobNotFound" rfl rfl
  exact ⟨rfl, h.2.1, h.2.2⟩

/-- C10: both URLs are built by raw string interpolation with no URL
encoding — they are the literal concatenation of the fixed endpoint text with
the caller-supplied strings — so a report name containing an ampersand
injects an extra query parameter into the request. -/
theorem urls_raw_interpolation :
    (∀ ws nm, buildUploadUrl ws nm =
      "https://api.powerbi.com/v1.0/myorg/groups/" ++ ws
        ++ "/imports?datasetDisplayName=" ++ nm
        ++ "&nameConflict=CreateOrOverwrite") ∧
    (∀ ws, reportsUrl ws =
      "https://api.powerbi.com/v1.0/myorg/groups/" ++ ws ++ "/reports") ∧
    queryParams (buildUploadUrl "W1" "Quarterly") =
      ["datasetDisplayName=Quarterly", "nameConflict=CreateOrOverwrite"] ∧
    queryParams (buildUploadUrl "W1" "Quarterly&nameConflict=Abort") =
      ["datasetDisplayName=Quarterly", "nameConflict=Abort",
        "nameConflict=CreateOrOverwrite"] := by
  exact ⟨buildUploadUrl_eq, reportsUrl_eq, by decide, by decide⟩

end PbixUploader
